import Mathlib

/-!
Verification of the text-preprocessing / cross-validation core of the
job-hunter-plus repository (`src/nlp_processing.py`, `src/build_model.py`).

The Python classes `NLPProcessing` and `JHPModel` are embedded as Lean
structures with explicit state passing; fallible operations return `Except`.
External collaborators (the data-import and record-filtering helpers, the
NLTK stemmers/lemmatizer, the scikit-learn vectorizers, classifier, KFold
splitter and confusion-matrix routine) are not part of the repository's
source; where their behaviour matters they are modelled from the spec, as
marked in the corresponding doc comments.
-/

/-- Python `str.split(" ")` on the character list of a document: splits at
every single space character, keeping empty pieces (so `"a  b"` yields
`["a", "", "b"]` and `""` yields `[""]`, exactly as in Python). -/
def splitSpacesAux : List Char → List Char → List String
  | [], acc => [String.mk acc.reverse]
  | c :: cs, acc =>
    if c == ' ' then String.mk acc.reverse :: splitSpacesAux cs []
    else splitSpacesAux cs (c :: acc)

/-- Whitespace tokenisation used by `_do_stem_lem`: `text.split(" ")`. -/
def tokenize (s : String) : List String :=
  splitSpacesAux s.data []

/-- Substring test on character lists: some drop of `s` starts with `pat`. -/
def listContainsSub (s pat : List Char) : Bool :=
  (List.range (s.length + 1)).any (fun i => pat.isPrefixOf (List.drop i s))

/-- Python's substring containment `pat in s` on strings, as used by
`_stemlem` for the checks `"wordnet" in self.stemlem` etc. -/
def strContains (s pat : String) : Bool :=
  listContainsSub s.data pat.data

/-- Modelled from the spec: the stop-word collaborator (`get_stopwords` in
`src/utils.py`, a file that is not part of the repository) supplies a static
English stop-word lookup; modelled as a representative fixed list. -/
def get_stopwords : List String :=
  ["the", "a", "an", "and", "of", "to", "in", "for"]

/-- Modelled from the spec: the tabular data handed through the pipeline —
either a frame of (document text, class label) records, or a bare document
sequence (which is what `JHPModel.predict` forwards to `transform`). -/
inductive InputData where
  | frame (records : List (String × Nat))
  | docs (documents : List String)
  deriving DecidableEq

/-- Modelled from the spec: the record-filtering collaborator
(`create_model_data` in `src/dataframe_processing.py`, a file that is not
part of the repository) "given raw rows and a target class count, returns
the filtered/labeled subset" — the frame restricted to the configured
number of classes, as used by `JHPModel.fit` and `JHPModel.cross_validate`. -/
def create_model_frame (records : List (String × Nat)) (num_cities : Nat) :
    List (String × Nat) :=
  records.filter (fun r => r.2 < num_cities)

/-- Modelled from the spec: the record-filtering collaborator as unpacked by
`NLPProcessing` (`fit_array, doc_array, y = create_model_data(...)`): it
"extracts the parallel document/label arrays consumed by TextPreprocessor",
filtering a frame to the configured class count; a bare document sequence
carries no labels.  The storage-location/file-name arguments (data import
is an external collaborator) are omitted. -/
def create_model_data (d : InputData) (num_cities : Nat) :
    List String × List String × List Nat :=
  match d with
  | InputData.frame records =>
    let kept := create_model_frame records num_cities
    (kept.map (fun r => r.1), kept.map (fun r => r.1), kept.map (fun r => r.2))
  | InputData.docs documents => (documents, documents, [])

/-- The three stemming/lemmatization transformations `_stemlem` can select. -/
inductive StemStep where
  | wordnet
  | snowball
  | porter
  deriving DecidableEq

/-- Modelled from the spec: the external NLTK collaborators
(WordNetLemmatizer, SnowballStemmer, PorterStemmer); each maps one word to
one word and is otherwise opaque to this repository. -/
structure StemExt where
  porter : String → String
  snowball : String → String
  wordnet : String → String

/-- The word-level function a given step applies (`model.stem` for the two
stemmers, `model.lemmatize` for WordNet; both are word-to-word maps). -/
def StemExt.stepFn (ext : StemExt) : StemStep → (String → String)
  | StemStep.wordnet => ext.wordnet
  | StemStep.snowball => ext.snowball
  | StemStep.porter => ext.porter

/-- A concrete instantiation of the external stemming collaborators (each
word mapped to itself), used to evaluate the pipeline on concrete inputs. -/
def idExt : StemExt :=
  { porter := id, snowball := id, wordnet := id }

/-- Which scikit-learn vectorizer class was instantiated. -/
inductive VecKind where
  | count
  | tfidf
  deriving DecidableEq

/-- Modelled from the spec: the fitted vocabulary of a vectorizer — the
distinct tokens of the training documents in order of first appearance,
excluding the vectorizer's configured stop words.  (The document-frequency
pruning and TF-IDF weighting themselves belong to the external library.) -/
def vocabOf (stop_words : List String) (docs : List String) : List String :=
  ((docs.map tokenize).flatten).foldl
    (fun acc w => if stop_words.contains w || acc.contains w then acc else acc ++ [w]) []

/-- The state of the scikit-learn vectorizer collaborator as configured and
fitted by `count_vectorize` / `tfidf_vectorize`: the constructor arguments
the repository passes, plus the vocabulary fitted from the training
documents. -/
structure Vectorizer where
  kind : VecKind
  stop_words : List String
  min_df : ℚ
  max_df : ℚ
  ngram_range : Nat × Nat
  vocabulary : List String
  deriving DecidableEq

/-- Modelled from the spec: the fitted vectorizer "maps text to the fitted
vocabulary's feature space (out-of-vocabulary terms contribute zero weight,
never expand the vocabulary)" — one row per document, one column per
vocabulary term, weight modelled as the token count (the TF-IDF rescaling
is internal to the external library). -/
def Vectorizer.transform (v : Vectorizer) (docs : List String) : List (List Nat) :=
  docs.map (fun text =>
    v.vocabulary.map (fun term => ((tokenize text).filter (fun w => w == term)).length))

/-- The `NLPProcessing` object of `src/nlp_processing.py` (constructor lines
17-36): the raw configuration fields, the unused `model` slot, the optional
fitted vectorizer and the `done_stopwords` flag. -/
structure NLPProcessing where
  model : Option Unit
  stemlem : String
  min_df : ℚ
  max_df : ℚ
  num_cities : Nat
  vectorize : Option Vectorizer
  n_grams : Nat
  use_stopwords : Bool
  done_stopwords : Bool
  deriving DecidableEq

/-- `NLPProcessing.__init__` (lines 17-36): plain field assignments, in the
source's parameter order; no validation of any kind is performed. -/
def NLPProcessing.init (stemlem : String) (min_df max_df : ℚ)
    (num_cities n_grams : Nat) (use_stopwords : Bool) : NLPProcessing :=
  { model := none
    stemlem := stemlem
    min_df := min_df
    max_df := max_df
    num_cities := num_cities
    vectorize := none
    n_grams := n_grams
    use_stopwords := use_stopwords
    done_stopwords := false }

/-- `_do_stem_lem` (lines 121-139): per document, split on single spaces,
drop words in the stop-word set (taken from the collaborator only when
`use_stopwords` is set and `done_stopwords` is not), apply the word-level
transformation `f` (`model.stem` or `model.lemmatize` — the two source
branches differ only in that method name) and re-join with spaces. -/
def NLPProcessing.do_stem_lem (st : NLPProcessing) (f : String → String)
    (documents : List String) : List String :=
  let stop_words := if st.use_stopwords && !st.done_stopwords then get_stopwords else []
  documents.map (fun text =>
    String.intercalate " "
      (((tokenize text).filter (fun w => !(stop_words.contains w))).map f))

/-- The sequence of transformations `_stemlem` (lines 92-99) applies, in
order: the WordNet lemmatizer first when `"wordnet"` occurs in the mode
string, then the Snowball stemmer when `"snowball"` occurs, else the Porter
stemmer when `"porter"` occurs (an `if`/`elif` pair).  The final
`if self.stemlem == "": text_array = list(text_array)` is the identity on a
document list and contributes no step. -/
def stemlemSteps (stemlem : String) : List StemStep :=
  (if strContains stemlem "wordnet" then [StemStep.wordnet] else []) ++
  (if strContains stemlem "snowball" then [StemStep.snowball]
   else if strContains stemlem "porter" then [StemStep.porter] else [])

/-- The document transformation performed by the body of `_stemlem`: the
selected steps applied left to right by `_do_stem_lem`, each reading the
state `st` (in the source, `self` with `done_stopwords` already set). -/
def NLPProcessing.stemlemDocs (ext : StemExt) (st : NLPProcessing)
    (docs : List String) : List String :=
  (stemlemSteps st.stemlem).foldl (fun ds s => st.do_stem_lem (ext.stepFn s) ds) docs

/-- `_stemlem` (lines 83-101): sets `done_stopwords := true`, runs the
selected stemming/lemmatization steps (each therefore sees the flag raised),
then resets `done_stopwords := false`; returns the updated state and the
transformed documents. -/
def NLPProcessing.stemlemApply (ext : StemExt) (st : NLPProcessing)
    (docs : List String) : NLPProcessing × List String :=
  ({ st with done_stopwords := false },
   NLPProcessing.stemlemDocs ext { st with done_stopwords := true } docs)

/-- `tfidf_vectorize` (lines 155-168): the stop-word list is passed to the
vectorizer only when `use_stopwords` is set and `stemlem == ""`; the
`TfidfVectorizer` is constructed with the configured document-frequency
bounds and `ngram_range = (n_grams, n_grams)`, then fitted on the training
documents. -/
def NLPProcessing.tfidf_vectorize (st : NLPProcessing)
    (training_docs : List String) : NLPProcessing :=
  let stop_words := if st.use_stopwords && st.stemlem == "" then get_stopwords else []
  { st with
    vectorize := some
      { kind := VecKind.tfidf
        stop_words := stop_words
        min_df := st.min_df
        max_df := st.max_df
        ngram_range := (st.n_grams, st.n_grams)
        vocabulary := vocabOf stop_words training_docs } }

/-- `count_vectorize` (lines 141-153): same stop-word condition, but the
`CountVectorizer` is constructed without any `ngram_range` argument, so it
keeps the library default `(1, 1)` whatever `n_grams` holds. -/
def NLPProcessing.count_vectorize (st : NLPProcessing)
    (training_docs : List String) : NLPProcessing :=
  let stop_words := if st.use_stopwords && st.stemlem == "" then get_stopwords else []
  { st with
    vectorize := some
      { kind := VecKind.count
        stop_words := stop_words
        min_df := st.min_df
        max_df := st.max_df
        ngram_range := (1, 1)
        vocabulary := vocabOf stop_words training_docs } }

/-- The message of the `AttributeError` raised by `transform` (lines 58-60)
when no processing pipeline has been fitted — the spec's
`NotFittedError`-equivalent. -/
def notFittedMsg : String :=
  "Must fit a processing pipeline before calling the transform method"

/-- `fit` (lines 38-48): extract the fit array, stem/lemmatize it, fit the
TF-IDF vectorizer on the result. -/
def NLPProcessing.fit (ext : StemExt) (st : NLPProcessing) (d : InputData) :
    NLPProcessing :=
  let t := create_model_data d st.num_cities
  let a := st.stemlemApply ext t.1
  a.1.tfidf_vectorize a.2

/-- The successful branch of `transform` (lines 61-65): extract the document
array and labels, stem/lemmatize, map through the already-fitted
vectorizer `v`; returns the updated state with the feature matrix and label
vector. -/
def NLPProcessing.transformFitted (ext : StemExt) (st : NLPProcessing)
    (v : Vectorizer) (d : InputData) :
    NLPProcessing × List (List Nat) × List Nat :=
  let t := create_model_data d st.num_cities
  let b := st.stemlemApply ext t.2.1
  (b.1, v.transform b.2, t.2.2)

/-- `transform` (lines 50-65): raises (here: returns `Except.error`) when
`vectorize` is still `None`; otherwise transforms and returns the feature
matrix together with the label vector (the source's `return x, y`). -/
def NLPProcessing.transform (ext : StemExt) (st : NLPProcessing) (d : InputData) :
    Except String (NLPProcessing × List (List Nat) × List Nat) :=
  match st.vectorize with
  | none => Except.error notFittedMsg
  | some v => Except.ok (st.transformFitted ext v d)

/-- `fit_transform` (lines 67-81): stem/lemmatize the fit array, fit the
TF-IDF vectorizer, stem/lemmatize the document array (a second `_stemlem`
pass), transform it, and return the feature matrix with the labels. -/
def NLPProcessing.fit_transform (ext : StemExt) (st : NLPProcessing)
    (d : InputData) : NLPProcessing × List (List Nat) × List Nat :=
  let t := create_model_data d st.num_cities
  let a := st.stemlemApply ext t.1
  let s2 := a.1.tfidf_vectorize a.2
  let b := s2.stemlemApply ext t.2.1
  let x := match b.1.vectorize with
    | some v => v.transform b.2
    | none => []
  (b.1, x, t.2.2)

/-- The constructor-supplied configuration of a preprocessor: stemming and
lemmatization mode, document-frequency bounds, class count, n-gram width
and the stop-word toggle. -/
def NLPProcessing.config (st : NLPProcessing) : String × ℚ × ℚ × Nat × Nat × Bool :=
  (st.stemlem, st.min_df, st.max_df, st.num_cities, st.n_grams, st.use_stopwords)

/-- Modelled from the spec: the classifier collaborator, "any object
satisfying the capability set {fit, predict, score}", duck-typed.  Every
call site in this repository hands its predict the ENTIRE (feature matrix,
label vector) pair returned by `transform` — the same payload its fit
receives — so the opaque external predict is typed over that payload; only
the label list it returns is observable here. -/
structure Classifier where
  predictFn : List (List Nat) × List Nat → List Nat

/-- The external classifier's `fit` call: its internal state is not part of
this repository and is not modelled; the argument it receives from
`JHPModel.fit` is `fit_transform`'s entire return value (a pair) together
with the label vector, exactly as in the source. -/
def Classifier.fit (c : Classifier)
    (_features : List (List Nat) × List Nat) (_labels : List Nat) : Classifier :=
  c

/-- The `JHPModel` object of `src/build_model.py` (constructor lines 26-42):
an `NLPProcessing` instance built from the same configuration, the wrapped
classifier, and the class count. -/
structure JHPModel where
  processing : NLPProcessing
  model : Classifier
  classes : Nat

/-- `JHPModel.__init__` (lines 26-42): instantiate the preprocessor with the
given configuration and store the classifier and class count; again no
validation of any kind. -/
def JHPModel.init (model : Classifier) (stemlem : String) (min_df max_df : ℚ)
    (num_cities n_grams : Nat) (use_stopwords : Bool) : JHPModel :=
  { processing := NLPProcessing.init stemlem min_df max_df num_cities n_grams use_stopwords
    model := model
    classes := num_cities }

/-- `JHPModel.fit` (lines 44-56): filter the frame to the configured classes,
run `fit_transform`, extract the labels, and hand the result to the external
classifier's `fit` — the source passes `features = fit_transform(...)`,
i.e. the whole (matrix, labels) pair, as the first argument. -/
def JHPModel.fit (ext : StemExt) (m : JHPModel)
    (training : List (String × Nat)) : JHPModel :=
  let df := create_model_frame training m.classes
  let ft := m.processing.fit_transform ext (InputData.frame df)
  let labels := df.map (fun r => r.2)
  { m with processing := ft.1, model := m.model.fit ft.2 labels }

/-- `JHPModel.predict` (lines 58-68): a single document is wrapped into a
one-element list; `testing = self.processing.transform(testing)` rebinds
`testing` to `transform`'s entire return value, and that value is what
`self.model.predict(testing)` receives.  The second component below is
therefore the exact payload forwarded to the external classifier's
`predict`. -/
def JHPModel.predict (ext : StemExt) (m : JHPModel)
    (testing : String ⊕ List String) :
    JHPModel × Except String (List (List Nat) × List Nat) :=
  let docs := match testing with
    | Sum.inl s => [s]
    | Sum.inr l => l
  match m.processing.transform ext (InputData.docs docs) with
  | Except.error e => (m, Except.error e)
  | Except.ok r => ({ m with processing := r.1 }, Except.ok r.2)

/-- Modelled from the spec: `sklearn.metrics.confusion_matrix` over the label
set `0, ..., n-1` — "class i truth vs class j prediction at cell [i][j]",
pairing the two label sequences positionally. -/
def confusionMatrix (n : Nat) (y_true y_pred : List Nat) : List (List Nat) :=
  (List.range n).map (fun i =>
    (List.range n).map (fun j =>
      ((y_true.zip y_pred).filter (fun p => p.1 == i && p.2 == j)).length))

/-- Elementwise matrix addition, the `confusion += ...` of line 90 for
equally-shaped numpy arrays. -/
def matAdd (a b : List (List Nat)) : List (List Nat) :=
  a.zipWith (fun ra rb => ra.zipWith (· + ·) rb) b

/-- `np.zeros((n, n))` of line 83. -/
def zerosMat (n : Nat) : List (List Nat) :=
  List.replicate n (List.replicate n 0)

/-- The sum of all entries of a matrix. -/
def entrySum (m : List (List Nat)) : Nat :=
  (m.map List.sum).sum

/-- The fold loop of `cross_validate` (lines 84-90): per fold, re-fit on the
training split, filter the held-out split, and bind `X_test` to
`transform`'s ENTIRE return — the (feature matrix, label vector) pair —
exactly as line 87 does; that whole pair is then forwarded to the external
classifier's predict (line 90), the same tuple forwarding `JHPModel.predict`
exhibits, and the fold's confusion matrix is added into the accumulator.
A transform failure aborts the run (the source exception propagates),
returning the state reached so far.  The per-fold accuracy `scores` and the
console reporting (lines 89, 91-95) concern only the external `score` call
— which receives the same pair — and printing, and are not modelled. -/
def JHPModel.cvGo (ext : StemExt) :
    JHPModel → List (List Nat) →
    List (List (String × Nat) × List (String × Nat)) →
    JHPModel × Except String (List (List Nat))
  | m, confusion, [] => (m, Except.ok confusion)
  | m, confusion, fold :: rest =>
    let m1 := m.fit ext fold.1
    let df_test := create_model_frame fold.2 m1.classes
    match m1.processing.transform ext (InputData.frame df_test) with
    | Except.error e => (m1, Except.error e)
    | Except.ok r =>
      let m2 := { m1 with processing := r.1 }
      let y_test := df_test.map (fun rec => rec.2)
      let y_pred := m2.model.predictFn r.2
      JHPModel.cvGo ext m2
        (matAdd confusion (confusionMatrix m2.classes y_test y_pred)) rest

/-- `JHPModel.cross_validate` (lines 70-95): starting from the zero
accumulator of size `classes × classes`, run the fold loop over the splits
supplied by the external KFold collaborator (given here directly as
(training records, held-out records) pairs). -/
def JHPModel.cross_validate (ext : StemExt) (m : JHPModel)
    (folds : List (List (String × Nat) × List (String × Nat))) :
    JHPModel × Except String (List (List Nat)) :=
  JHPModel.cvGo ext m (zerosMat m.classes) folds

/-- A numpy floating-point scalar as produced by `_get_scores`: a finite
value, one of the two infinities, or not-a-number. -/
inductive NpVal where
  | num (q : ℚ)
  | inf
  | neginf
  | nan
  deriving DecidableEq

/-- numpy true division on scalars (elementwise on the arrays of
`_get_scores`): division by zero yields nan for a zero numerator and a
signed infinity otherwise — a runtime warning, never an exception. -/
def npDiv : NpVal → NpVal → NpVal
  | NpVal.nan, _ => NpVal.nan
  | _, NpVal.nan => NpVal.nan
  | NpVal.num a, NpVal.num b =>
    if b = 0 then
      (if a = 0 then NpVal.nan else if 0 < a then NpVal.inf else NpVal.neginf)
    else NpVal.num (a / b)
  | NpVal.num _, NpVal.inf => NpVal.num 0
  | NpVal.num _, NpVal.neginf => NpVal.num 0
  | NpVal.inf, NpVal.num b => if b < 0 then NpVal.neginf else NpVal.inf
  | NpVal.neginf, NpVal.num b => if b < 0 then NpVal.inf else NpVal.neginf
  | NpVal.inf, NpVal.inf => NpVal.nan
  | NpVal.inf, NpVal.neginf => NpVal.nan
  | NpVal.neginf, NpVal.inf => NpVal.nan
  | NpVal.neginf, NpVal.neginf => NpVal.nan

/-- numpy addition on scalars: nan propagates, opposite infinities give nan. -/
def npAdd : NpVal → NpVal → NpVal
  | NpVal.nan, _ => NpVal.nan
  | _, NpVal.nan => NpVal.nan
  | NpVal.num a, NpVal.num b => NpVal.num (a + b)
  | NpVal.inf, NpVal.neginf => NpVal.nan
  | NpVal.neginf, NpVal.inf => NpVal.nan
  | NpVal.inf, _ => NpVal.inf
  | _, NpVal.inf => NpVal.inf
  | NpVal.neginf, _ => NpVal.neginf
  | _, NpVal.neginf => NpVal.neginf

/-- Row `i` total of a confusion matrix: `confusion_matrix.sum(axis=1)[i]`. -/
def rowSum (m : List (List Nat)) (i : Nat) : Nat :=
  (m.getD i []).sum

/-- Column `j` total of a confusion matrix: `confusion_matrix.sum(axis=0)[j]`. -/
def colSum (m : List (List Nat)) (j : Nat) : Nat :=
  (m.map (fun r => r.getD j 0)).sum

/-- Diagonal entry `i` of a confusion matrix: `np.diag(confusion_matrix)[i]`. -/
def diagEntry (m : List (List Nat)) (i : Nat) : Nat :=
  (m.getD i []).getD i 0

/-- `_get_scores` (lines 97-110): per class `i` (one loop iteration per row
of the matrix), precision is the diagonal entry over the row total
(`d / confusion_matrix.sum(axis=1)`), recall is the diagonal entry over the
column total (`d / confusion_matrix.sum(axis=0)`), and F1 is
`2 / ((1/precision) + (1/recall))`; the function only formats and prints
these values, so its observable content is the per-class triple list. -/
def get_scores (confusion : List (List Nat)) : List (NpVal × NpVal × NpVal) :=
  (List.range confusion.length).map (fun i =>
    let d : ℚ := diagEntry confusion i
    let precisionV := npDiv (NpVal.num d) (NpVal.num (rowSum confusion i))
    let recallV := npDiv (NpVal.num d) (NpVal.num (colSum confusion i))
    let F1 := npDiv (NpVal.num 2)
      (npAdd (npDiv (NpVal.num 1) precisionV) (npDiv (NpVal.num 1) recallV))
    (precisionV, recallV, F1))

/-- The public operations of a `NLPProcessing` instance, for reasoning about
arbitrary call sequences. -/
inductive ProcOp where
  | fitOp (d : InputData)
  | transformOp (d : InputData)
  | fitTransformOp (d : InputData)
  deriving DecidableEq

/-- Whether an operation is one of the two fitting calls. -/
def ProcOp.isFitting : ProcOp → Bool
  | ProcOp.fitOp _ => true
  | ProcOp.fitTransformOp _ => true
  | ProcOp.transformOp _ => false

/-- Execute one preprocessor operation; a raised error leaves the object as
it was at the raise point (for `transform`, unchanged). -/
def NLPProcessing.runProcOp (ext : StemExt) (st : NLPProcessing) :
    ProcOp → NLPProcessing
  | ProcOp.fitOp d => st.fit ext d
  | ProcOp.transformOp d =>
    match st.transform ext d with
    | Except.ok r => r.1
    | Except.error _ => st
  | ProcOp.fitTransformOp d => (st.fit_transform ext d).1

/-- Execute a sequence of preprocessor operations. -/
def NLPProcessing.runProcOps (ext : StemExt) (st : NLPProcessing)
    (ops : List ProcOp) : NLPProcessing :=
  ops.foldl (NLPProcessing.runProcOp ext) st

/-- The operations callable on a constructed pipeline, at both the
preprocessor and the model level. -/
inductive PipelineOp where
  | procFit (d : InputData)
  | procTransform (d : InputData)
  | procFitTransform (d : InputData)
  | modelFit (training : List (String × Nat))
  | modelPredict (testing : String ⊕ List String)
  | modelCrossValidate (folds : List (List (String × Nat) × List (String × Nat)))

/-- Execute one pipeline operation on a `JHPModel`, threading the state each
call leaves behind (errors leave the state reached at the raise point). -/
def JHPModel.runPipelineOp (ext : StemExt) (m : JHPModel) :
    PipelineOp → JHPModel
  | PipelineOp.procFit d => { m with processing := m.processing.fit ext d }
  | PipelineOp.procTransform d =>
    match m.processing.transform ext d with
    | Except.ok r => { m with processing := r.1 }
    | Except.error _ => m
  | PipelineOp.procFitTransform d =>
    { m with processing := (m.processing.fit_transform ext d).1 }
  | PipelineOp.modelFit tr => m.fit ext tr
  | PipelineOp.modelPredict t => (m.predict ext t).1
  | PipelineOp.modelCrossValidate folds => (m.cross_validate ext folds).1

/-- Execute a sequence of pipeline operations. -/
def JHPModel.runPipelineOps (ext : StemExt) (m : JHPModel)
    (ops : List PipelineOp) : JHPModel :=
  ops.foldl (JHPModel.runPipelineOp ext) m

/-- A concrete duck-typed classifier collaborator: its predict returns class
0 for every feature row of the (features, labels) payload it receives. -/
def demoClassifier : Classifier :=
  { predictFn := fun p => p.1.map (fun _ => 0) }

/-- A concrete two-class training frame. -/
def demoTraining : List (String × Nat) :=
  [("a a", 0), ("b", 1)]

/-- A pipeline fitted on `demoTraining` (no stemming, stop words off). -/
def demoFitted : JHPModel :=
  (JHPModel.init demoClassifier "" 1 1 2 1 false).fit idExt demoTraining

/-- A square matrix of size n × n. -/
def MatDim (n : Nat) (A : List (List Nat)) : Prop :=
  A.length = n ∧ ∀ r ∈ A, r.length = n

/-- C2: the claim predicts class-0 precision 8/9 for the confusion matrix
[[8,2],[1,9]] (rows = truth, columns = predicted), but `_get_scores` divides
the diagonal by the row totals for precision, yielding 8/10 = 4/5 ≠ 8/9. -/
theorem score_report_class0_cex :
    (get_scores [[8, 2], [1, 9]]).get? 0 =
      some (NpVal.num (4/5), NpVal.num (8/9), NpVal.num (16/19)) ∧
    NpVal.num ((4 : ℚ)/5) ≠ NpVal.num (8/9) := by
  have hr : List.range 2 = [0, 1] := by decide
  constructor
  · norm_num [get_scores, hr, diagEntry, rowSum, colSum, npDiv, npAdd]
  · intro h
    rw [NpVal.num.injEq] at h
    norm_num at h

/-- C2 (amended): on [[8,2],[1,9]] with rows = truth and columns = predicted,
`_get_scores` reports class-0 precision 8/10 (diagonal over the row, i.e.
actual-positive, total) and recall 8/9 (diagonal over the column, i.e.
predicted-positive, total) — the transpose of the claim's convention — and
F1 = 16/19, the harmonic mean of the two; for class 1 it reports 9/10, 9/11
and harmonic mean 6/7. -/
theorem score_report_values :
    get_scores [[8, 2], [1, 9]] =
      [(NpVal.num (4/5), NpVal.num (8/9), NpVal.num (16/19)),
       (NpVal.num (9/10), NpVal.num (9/11), NpVal.num (6/7))] := by
  have hr : List.range 2 = [0, 1] := by decide
  norm_num [get_scores, hr, diagEntry, rowSum, colSum, npDiv, npAdd]

/-- C8: constructing a pipeline with maximum document frequency 1/10 below
minimum document frequency 5, n-gram width 0 and class count 0 does not
fail: both constructors are plain field assignments, so the contradictory
configuration is accepted and stored verbatim. -/
theorem construction_accepts_invalid :
    NLPProcessing.init "" 5 (1/10) 0 0 true =
      { model := none, stemlem := "", min_df := 5, max_df := 1/10,
        num_cities := 0, vectorize := none, n_grams := 0,
        use_stopwords := true, done_stopwords := false } ∧
    (JHPModel.init demoClassifier "" 5 (1/10) 0 0 true).classes = 0 ∧
    (JHPModel.init demoClassifier "" 5 (1/10) 0 0 true).processing =
      NLPProcessing.init "" 5 (1/10) 0 0 true :=
  ⟨rfl, rfl, rfl⟩

/-- C8 (amended): construction never validates the configuration — for every
argument tuple, including contradictory or out-of-range ones, the
constructor succeeds, stores the configuration fields verbatim and leaves
the pipeline unfitted. -/
theorem construction_stores_config (stemlem : String) (min_df max_df : ℚ)
    (num_cities n_grams : Nat) (use_stopwords : Bool) :
    (NLPProcessing.init stemlem min_df max_df num_cities n_grams use_stopwords).config
      = (stemlem, min_df, max_df, num_cities, n_grams, use_stopwords) ∧
    (NLPProcessing.init stemlem min_df max_df num_cities n_grams use_stopwords).vectorize
      = none ∧
    (JHPModel.init demoClassifier stemlem min_df max_df num_cities n_grams
        use_stopwords).classes = num_cities :=
  ⟨rfl, rfl, rfl⟩

/-- C10: for every preprocessor state and every training corpus, TF-IDF
vectorization fits with n-gram range exactly (n_grams, n_grams), while
count vectorization always fits with the library-default range (1, 1),
whatever the configured n-gram width. -/
theorem vectorizer_ngram_policy (st : NLPProcessing) (docs : List String) :
    ((st.tfidf_vectorize docs).vectorize).map Vectorizer.ngram_range
      = some (st.n_grams, st.n_grams) ∧
    ((st.count_vectorize docs).vectorize).map Vectorizer.ngram_range
      = some (1, 1) :=
  ⟨rfl, rfl⟩

/-- C3: with `stemlem = "porter"` and `use_stopwords = True`, the configured
stop word "the" is removed zero times — the stem/lemmatize pass leaves
"the jobs" unchanged, because `_stemlem` raises `done_stopwords` before the
stemmer runs, and the vectorizer receives no stop words because
`stemlem ≠ ""` — so "the" survives into the fitted vocabulary, contradicting
the claim's exactly-once removal. -/
theorem stopword_survives_vocabulary :
    get_stopwords.contains "the" = true ∧
    ((NLPProcessing.init "porter" 1 1 2 1 true).stemlemApply idExt
        ["the jobs"]).2 = ["the jobs"] ∧
    (((NLPProcessing.init "porter" 1 1 2 1 true).fit idExt
        (InputData.frame [("the jobs", 0), ("the work", 1)])).vectorize).map
      (fun v => v.vocabulary.contains "the") = some true := by
  decide

/-- C1: on a fitted pipeline, `predict` does normalize the single document
"a" into the one-element sequence ["a"], but the value it forwards to the
external classifier's `predict` is `transform`'s entire return — the pair
of the feature matrix [[1, 0]] and the label vector [] — rather than the
feature matrix alone as the claim (and the classifier collaborator's
contract) requires. -/
theorem predict_forwards_pair :
    (demoFitted.predict idExt (Sum.inl "a")).2.toOption = some ([[1, 0]], []) ∧
    (demoFitted.predict idExt (Sum.inl "a")).2.toOption
      = (demoFitted.predict idExt (Sum.inr ["a"])).2.toOption := by
  decide

/-- C5: for every stemlem mode string, the step sequence `_stemlem` applies
puts the WordNet lemmatizer first whenever it is selected, runs at most one
stemmer, prefers snowball over porter whenever snowball is selected (porter
then never runs), and runs any stemmer strictly after the lemmatizer. -/
theorem stemlem_policy (s : String) :
    (strContains s "wordnet" = true →
      (stemlemSteps s).head? = some StemStep.wordnet) ∧
    ((stemlemSteps s).countP
      (fun t => t == StemStep.snowball || t == StemStep.porter) ≤ 1) ∧
    (strContains s "snowball" = true →
      StemStep.snowball ∈ stemlemSteps s ∧ StemStep.porter ∉ stemlemSteps s) ∧
    (StemStep.wordnet ∈ stemlemSteps s → StemStep.snowball ∈ stemlemSteps s →
      stemlemSteps s = [StemStep.wordnet, StemStep.snowball]) ∧
    (StemStep.wordnet ∈ stemlemSteps s → StemStep.porter ∈ stemlemSteps s →
      stemlemSteps s = [StemStep.wordnet, StemStep.porter]) := by
  unfold stemlemSteps
  cases hw : strContains s "wordnet" <;>
    cases hs : strContains s "snowball" <;>
      cases hp : strContains s "porter" <;>
        simp [hw, hs, hp]

/-- C5 (witness): with mode "wordnet snowball", lemmatization runs first and
the snowball stemmer second. -/
theorem stemlem_policy_witness :
    (stemlemSteps "wordnet snowball").head? = some StemStep.wordnet ∧
    StemStep.snowball ∈ stemlemSteps "wordnet snowball" ∧
    StemStep.porter ∉ stemlemSteps "wordnet snowball" ∧
    stemlemSteps "wordnet snowball" = [StemStep.wordnet, StemStep.snowball] := by
  have h := stemlem_policy "wordnet snowball"
  exact ⟨h.1 (by decide), (h.2.2.1 (by decide)).1, (h.2.2.1 (by decide)).2,
    h.2.2.2.1 (by decide) (by decide)⟩

/-- A non-fitting preprocessor operation cannot create a vectorizer. -/
theorem runProcOp_vectorize_none (ext : StemExt) (st : NLPProcessing)
    (op : ProcOp) (hv : st.vectorize = none) (hop : op.isFitting = false) :
    (st.runProcOp ext op).vectorize = none := by
  cases op with
  | fitOp d => simp [ProcOp.isFitting] at hop
  | fitTransformOp d => simp [ProcOp.isFitting] at hop
  | transformOp d =>
    simp [NLPProcessing.runProcOp, NLPProcessing.transform, hv]

/-- A sequence of non-fitting operations leaves the vectorizer unfitted. -/
theorem runProcOps_vectorize_none (ext : StemExt) (ops : List ProcOp) :
    ∀ st : NLPProcessing, st.vectorize = none →
      (∀ op ∈ ops, op.isFitting = false) →
      (st.runProcOps ext ops).vectorize = none := by
  induction ops with
  | nil => intro st hv _; exact hv
  | cons op rest ih =>
    intro st hv hall
    rw [NLPProcessing.runProcOps, List.foldl_cons]
    exact ih _ (runProcOp_vectorize_none ext st op hv (hall op (by simp)))
      (fun o ho => hall o (by simp [ho]))

/-- C4: on a freshly constructed `NLPProcessing` on which no fit or
fit_transform call has happened (any sequence of non-fitting operations may
have run), every `transform` call fails with the not-fitted error and
produces no feature matrix. -/
theorem transform_requires_fit (ext : StemExt) (stemlem : String)
    (min_df max_df : ℚ) (num_cities n_grams : Nat) (use_stopwords : Bool)
    (ops : List ProcOp) (h : ∀ op ∈ ops, op.isFitting = false) (d : InputData) :
    ((NLPProcessing.init stemlem min_df max_df num_cities n_grams
        use_stopwords).runProcOps ext ops).transform ext d
      = Except.error notFittedMsg := by
  have hv := runProcOps_vectorize_none ext ops
    (NLPProcessing.init stemlem min_df max_df num_cities n_grams use_stopwords)
    rfl h
  rw [NLPProcessing.transform, hv]

/-- C4 (witness): a concrete never-fitted preprocessor, after one failed
transform attempt, still rejects a transform call with the not-fitted
error. -/
theorem transform_requires_fit_witness :
    ((NLPProcessing.init "" 1 1 2 1 true).runProcOps idExt
        [ProcOp.transformOp (InputData.docs ["x"])]).transform idExt
      (InputData.docs ["y"]) = Except.error notFittedMsg :=
  transform_requires_fit idExt "" 1 1 2 1 true
    [ProcOp.transformOp (InputData.docs ["x"])] (by decide) (InputData.docs ["y"])

/-- A row with a zero total has a zero diagonal entry. -/
theorem diagEntry_eq_zero_of_rowSum (m : List (List Nat)) (i : Nat)
    (h : rowSum m i = 0) : diagEntry m i = 0 := by
  unfold rowSum at h
  unfold diagEntry
  rcases Nat.lt_or_ge i (m.getD i []).length with hi | hi
  · rw [List.getD_eq_getElem _ _ hi]
    exact (List.sum_eq_zero_iff.mp h) _ (List.getElem_mem hi)
  · rw [List.getD_eq_default _ _ hi]

/-- A column with a zero total has a zero diagonal entry. -/
theorem diagEntry_eq_zero_of_colSum (m : List (List Nat)) (i : Nat)
    (hi : i < m.length) (h : colSum m i = 0) : diagEntry m i = 0 := by
  unfold colSum at h
  unfold diagEntry
  have hrow : ∀ r ∈ m, r.getD i 0 = 0 := by
    intro r hr
    exact (List.sum_eq_zero_iff.mp h) _ (List.mem_map_of_mem _ hr)
  rw [List.getD_eq_getElem _ _ hi]
  exact hrow _ (List.getElem_mem hi)

/-- The class-`i` entry of the score report, written out. -/
theorem get_scores_getD (m : List (List Nat)) (i : Nat) (hi : i < m.length) :
    (get_scores m).getD i (NpVal.nan, NpVal.nan, NpVal.nan) =
      (npDiv (NpVal.num (diagEntry m i)) (NpVal.num (rowSum m i)),
       npDiv (NpVal.num (diagEntry m i)) (NpVal.num (colSum m i)),
       npDiv (NpVal.num 2)
         (npAdd
           (npDiv (NpVal.num 1)
             (npDiv (NpVal.num (diagEntry m i)) (NpVal.num (rowSum m i))))
           (npDiv (NpVal.num 1)
             (npDiv (NpVal.num (diagEntry m i)) (NpVal.num (colSum m i)))))) := by
  unfold get_scores
  rw [List.getD_eq_getElem _ _ (by simpa using hi)]
  simp

/-- C7: the score report never raises: it always yields one triple per class,
and for any class whose actual-positive (row) total or predicted-positive
(column) total is zero, the metric computed with that zero denominator is
the sentinel nan (its numerator, the diagonal entry, is then necessarily
zero as well). -/
theorem zero_denominator_sentinel (m : List (List Nat)) (i : Nat)
    (hi : i < m.length) :
    (get_scores m).length = m.length ∧
    (rowSum m i = 0 →
      ((get_scores m).getD i (NpVal.nan, NpVal.nan, NpVal.nan)).1 = NpVal.nan) ∧
    (colSum m i = 0 →
      ((get_scores m).getD i (NpVal.nan, NpVal.nan, NpVal.nan)).2.1 = NpVal.nan) := by
  refine ⟨by simp [get_scores], ?_, ?_⟩
  · intro h
    rw [get_scores_getD m i hi]
    have hd := diagEntry_eq_zero_of_rowSum m i h
    simp [npDiv, h, hd]
  · intro h
    rw [get_scores_getD m i hi]
    have hd := diagEntry_eq_zero_of_colSum m i hi h
    simp [npDiv, h, hd]

/-- C7 (witness): on [[0,0],[0,3]], class 0 has zero row and column totals
and both its precision and recall come out as nan while the report still
has one entry per class. -/
theorem zero_denominator_sentinel_witness :
    (get_scores [[0, 0], [0, 3]]).length = [[0, 0], [0, 3]].length ∧
    ((get_scores [[0, 0], [0, 3]]).getD 0
      (NpVal.nan, NpVal.nan, NpVal.nan)).1 = NpVal.nan ∧
    ((get_scores [[0, 0], [0, 3]]).getD 0
      (NpVal.nan, NpVal.nan, NpVal.nan)).2.1 = NpVal.nan := by
  have h := zero_denominator_sentinel [[0, 0], [0, 3]] 0 (by decide)
  exact ⟨h.1, h.2.1 (by decide), h.2.2 (by decide)⟩

/-- A successful transform leaves the preprocessor configuration unchanged. -/
theorem transform_ok_config (ext : StemExt) (st : NLPProcessing) (d : InputData)
    (r : NLPProcessing × List (List Nat) × List Nat)
    (h : st.transform ext d = Except.ok r) : r.1.config = st.config := by
  unfold NLPProcessing.transform at h
  cases hv : st.vectorize with
  | none => rw [hv] at h; simp at h
  | some v =>
    rw [hv] at h
    injection h with h2
    rw [← h2]
    rfl

/-- The cross-validation loop modifies neither the preprocessor
configuration nor the class count. -/
theorem cvGo_preserves_config (ext : StemExt) :
    ∀ (folds : List (List (String × Nat) × List (String × Nat)))
      (m : JHPModel) (conf : List (List Nat)),
      ((JHPModel.cvGo ext m conf folds).1.processing.config
        = m.processing.config) ∧
      ((JHPModel.cvGo ext m conf folds).1.classes = m.classes) := by
  intro folds
  induction folds with
  | nil => intro m conf; exact ⟨rfl, rfl⟩
  | cons fold rest ih =>
    intro m conf
    simp only [JHPModel.cvGo]
    rcases htr : (JHPModel.fit ext m fold.1).processing.transform ext
        (InputData.frame (create_model_frame fold.2
          (JHPModel.fit ext m fold.1).classes)) with e | r <;>
      simp only [htr]
    · exact ⟨rfl, rfl⟩
    · exact ⟨((ih _ _).1).trans ((transform_ok_config ext _ _ _ htr).trans rfl),
        ((ih _ _).2).trans rfl⟩

/-- Each single pipeline operation preserves the configuration fields and
the class count. -/
theorem runPipelineOp_config (ext : StemExt) (m : JHPModel) (op : PipelineOp) :
    ((m.runPipelineOp ext op).processing.config = m.processing.config) ∧
    ((m.runPipelineOp ext op).classes = m.classes) := by
  cases op with
  | procFit d => exact ⟨rfl, rfl⟩
  | procTransform d =>
    simp only [JHPModel.runPipelineOp]
    rcases htr : m.processing.transform ext d with e | r <;> simp only [htr]
    · exact ⟨by trivial, by trivial⟩
    · exact ⟨transform_ok_config ext _ _ _ htr, by trivial⟩
  | procFitTransform d => exact ⟨rfl, rfl⟩
  | modelFit tr => exact ⟨rfl, rfl⟩
  | modelPredict t =>
    simp only [JHPModel.runPipelineOp, JHPModel.predict]
    cases t with
    | inl s =>
      rcases htr : m.processing.transform ext (InputData.docs [s]) with e | r <;>
        simp only [htr]
      · exact ⟨by trivial, by trivial⟩
      · exact ⟨transform_ok_config ext _ _ _ htr, by trivial⟩
    | inr l =>
      rcases htr : m.processing.transform ext (InputData.docs l) with e | r <;>
        simp only [htr]
      · exact ⟨by trivial, by trivial⟩
      · exact ⟨transform_ok_config ext _ _ _ htr, by trivial⟩
  | modelCrossValidate folds =>
    exact ⟨(cvGo_preserves_config ext folds m _).1,
      (cvGo_preserves_config ext folds m _).2⟩

/-- C9: every sequence of fit, transform, fit_transform, predict and
cross_validate calls leaves the constructor-supplied configuration
(stemlem mode, document-frequency bounds, class count, n-gram width,
stop-word toggle) and the model-level class count exactly as they were. -/
theorem config_immutable (ext : StemExt) (m : JHPModel) (ops : List PipelineOp) :
    ((m.runPipelineOps ext ops).processing.config = m.processing.config) ∧
    ((m.runPipelineOps ext ops).classes = m.classes) := by
  induction ops generalizing m with
  | nil => exact ⟨rfl, rfl⟩
  | cons op rest ih =>
    have hstep : m.runPipelineOps ext (op :: rest)
        = (m.runPipelineOp ext op).runPipelineOps ext rest := by
      rw [JHPModel.runPipelineOps, JHPModel.runPipelineOps, List.foldl_cons]
    rw [hstep]
    exact ⟨((ih _).1).trans (runPipelineOp_config ext m op).1,
      ((ih _).2).trans (runPipelineOp_config ext m op).2⟩

/-- Summing a pointwise sum of two maps splits into two sums. -/
theorem sum_map_add {α : Type} (l : List α) (f g : α → Nat) :
    (l.map (fun x => f x + g x)).sum = (l.map f).sum + (l.map g).sum := by
  induction l with
  | nil => simp
  | cons a t ih => simp [ih]; omega

/-- Mapping everything to zero sums to zero. -/
theorem sum_map_const_zero {α : Type} (l : List α) :
    (l.map (fun _ => (0 : Nat))).sum = 0 := by
  induction l with
  | nil => rfl
  | cons a t ih => simp [ih]

/-- Filtering a cons adds the head's indicator to the tail count. -/
theorem filter_cons_length {α : Type} (p : α → Bool) (a : α) (l : List α) :
    ((a :: l).filter p).length = (if p a then 1 else 0) + (l.filter p).length := by
  by_cases h : p a <;> simp [List.filter_cons, h, Nat.add_comm]

/-- The indicator of `k` summed over `0, ..., n-1` is 1 exactly when `k < n`. -/
theorem sum_indicator_range (n k : Nat) :
    ((List.range n).map (fun i => if k == i then 1 else 0)).sum
      = if k < n then 1 else 0 := by
  induction n with
  | zero => simp
  | succ n ih =>
    rw [List.range_succ, List.map_append, List.sum_append, ih]
    simp only [List.map_cons, List.map_nil, List.sum_cons, List.sum_nil,
      beq_iff_eq]
    by_cases h2 : k = n
    · subst h2
      simp [Nat.lt_irrefl, Nat.lt_succ_iff]
    · by_cases h1 : k < n
      · simp [h1, h2, Nat.lt_succ_of_lt h1]
      · have h3 : ¬ k < n + 1 := by omega
        simp [h1, h2, h3]

/-- Counting, for each `i < n`, the elements whose key is `i`, totals the
number of elements whose key is below `n`. -/
theorem sum_range_filter_count {α : Type} (n : Nat) (h : α → Nat) (l : List α) :
    ((List.range n).map (fun i => (l.filter (fun a => h a == i)).length)).sum
      = (l.filter (fun a => h a < n)).length := by
  induction l with
  | nil => simp
  | cons a t ih =>
    have hstep : ∀ i : Nat, ((a :: t).filter (fun x => h x == i)).length
        = (if h a == i then 1 else 0) + (t.filter (fun x => h x == i)).length :=
      fun i => filter_cons_length _ a t
    simp only [hstep]
    rw [sum_map_add, ih, sum_indicator_range, filter_cons_length]
    by_cases hh : h a < n <;> simp [hh]

/-- The entries of a `confusionMatrix` over in-range label sequences sum to
the number of paired samples. -/
theorem confusionMatrix_entrySum (n : Nat) (yt yp : List Nat)
    (ht : ∀ k ∈ yt, k < n) (_hp : ∀ k ∈ yp, k < n) :
    entrySum (confusionMatrix n yt yp) = (yt.zip yp).length := by
  unfold entrySum confusionMatrix
  rw [List.map_map]
  have hrow : ∀ i : Nat,
      ((List.range n).map (fun j =>
        ((yt.zip yp).filter (fun p => p.1 == i && p.2 == j)).length)).sum
      = ((yt.zip yp).filter (fun p => p.1 == i)).length := by
    intro i
    have hsplit : ∀ j : Nat,
        (yt.zip yp).filter (fun p => p.1 == i && p.2 == j)
          = ((yt.zip yp).filter (fun p => p.1 == i)).filter (fun p => p.2 == j) := by
      intro j
      rw [List.filter_filter]
      exact List.filter_congr (fun p _ => Bool.and_comm _ _)
    simp only [hsplit]
    rw [sum_range_filter_count n (fun p => p.2)
      ((yt.zip yp).filter (fun p => p.1 == i))]
    rw [List.filter_eq_self.mpr]
    intro p hp2
    have hmem : p ∈ yt.zip yp := List.mem_of_mem_filter hp2
    have h2 : p.2 ∈ yp := (List.of_mem_zip hmem).2
    simpa using _hp _ h2
  have hcols : ((List.range n).map (List.sum ∘ fun i =>
      (List.range n).map (fun j =>
        ((yt.zip yp).filter (fun p => p.1 == i && p.2 == j)).length))).sum
      = ((List.range n).map (fun i =>
          ((yt.zip yp).filter (fun p => p.1 == i)).length)).sum := by
    apply congrArg List.sum
    apply List.map_congr_left
    intro i _
    exact hrow i
  rw [hcols, sum_range_filter_count n (fun p => p.1) (yt.zip yp)]
  rw [List.filter_eq_self.mpr]
  intro p hpm
  have h1 : p.1 ∈ yt := (List.of_mem_zip hpm).1
  simpa using ht _ h1

/-- The zero matrix is square. -/
theorem matDim_zeros (n : Nat) : MatDim n (zerosMat n) := by
  constructor
  · simp [zerosMat]
  · intro r hr
    rw [List.eq_of_mem_replicate hr]
    simp

/-- A confusion matrix over `n` classes is square of size n. -/
theorem matDim_confusionMatrix (n : Nat) (yt yp : List Nat) :
    MatDim n (confusionMatrix n yt yp) := by
  constructor
  · simp [confusionMatrix]
  · intro r hr
    simp only [confusionMatrix, List.mem_map] at hr
    obtain ⟨i, _, rfl⟩ := hr
    simp

/-- Summing a zip-with-addition of equally long rows splits into two sums. -/
theorem sum_zipWith_add : ∀ (a b : List Nat), a.length = b.length →
    (a.zipWith (· + ·) b).sum = a.sum + b.sum := by
  intro a
  induction a with
  | nil =>
    intro b h
    cases b with
    | nil => simp
    | cons y u => simp at h
  | cons x t ih =>
    intro b h
    cases b with
    | nil => simp at h
    | cons y u =>
      simp only [List.zipWith_cons_cons, List.sum_cons]
      rw [ih u (by simpa using h)]
      omega

/-- Elementwise addition of two square matrices is square. -/
theorem matDim_matAdd (n : Nat) (A B : List (List Nat))
    (hA : MatDim n A) (hB : MatDim n B) : MatDim n (matAdd A B) := by
  obtain ⟨hA1, hA2⟩ := hA
  obtain ⟨hB1, hB2⟩ := hB
  constructor
  · rw [matAdd, List.length_zipWith, hA1, hB1, Nat.min_self]
  · intro r hr
    rw [matAdd, List.mem_iff_getElem] at hr
    obtain ⟨i, hi, rfl⟩ := hr
    rw [List.length_zipWith, hA1, hB1, Nat.min_self] at hi
    rw [List.getElem_zipWith, List.length_zipWith,
      hA2 _ (List.getElem_mem (by omega)), hB2 _ (List.getElem_mem (by omega)),
      Nat.min_self]

/-- Entry sums add under elementwise addition of shape-compatible matrices. -/
theorem entrySum_matAdd : ∀ (A B : List (List Nat)), A.length = B.length →
    (∀ p ∈ A.zip B, p.1.length = p.2.length) →
    entrySum (matAdd A B) = entrySum A + entrySum B := by
  intro A
  induction A with
  | nil =>
    intro B h _
    cases B with
    | nil => simp [matAdd, entrySum]
    | cons rb Bt => simp at h
  | cons ra At ih =>
    intro B hlen hrows
    cases B with
    | nil => simp at hlen
    | cons rb Bt =>
      have hr : ra.length = rb.length := hrows (ra, rb) (by simp)
      have htail := ih Bt (by simpa using hlen)
        (fun p hp => hrows p (by simp [List.zip_cons_cons, hp]))
      simp only [matAdd, List.zipWith_cons_cons, entrySum, List.map_cons,
        List.sum_cons] at htail ⊢
      rw [sum_zipWith_add ra rb hr, htail]
      omega

/-- The entry sum of two square matrices adds under `matAdd`. -/
theorem entrySum_matAdd_dim (n : Nat) (A B : List (List Nat))
    (hA : MatDim n A) (hB : MatDim n B) :
    entrySum (matAdd A B) = entrySum A + entrySum B := by
  apply entrySum_matAdd A B (hA.1.trans hB.1.symm)
  intro p hp
  have hm := List.of_mem_zip hp
  rw [hA.2 _ hm.1, hB.2 _ hm.2]

/-- The zero matrix has entry sum zero. -/
theorem entrySum_zeros (n : Nat) : entrySum (zerosMat n) = 0 := by
  simp [entrySum, zerosMat, List.map_replicate, List.sum_replicate]

/-- After a model-level fit the preprocessor always holds a fitted
vectorizer. -/
theorem fit_vectorize_some (ext : StemExt) (m : JHPModel)
    (tr : List (String × Nat)) :
    ∃ v, ((m.fit ext tr).processing).vectorize = some v :=
  ⟨_, rfl⟩

/-- On a state with a fitted vectorizer, `transform` takes its successful
branch. -/
theorem transform_eq_of_some (ext : StemExt) (st : NLPProcessing)
    (d : InputData) (v : Vectorizer) (hv : st.vectorize = some v) :
    st.transform ext d = Except.ok (st.transformFitted ext v d) := by
  unfold NLPProcessing.transform
  rw [hv]

/-- `_do_stem_lem` returns one document per input document. -/
theorem do_stem_lem_length (st : NLPProcessing) (f : String → String)
    (docs : List String) : (st.do_stem_lem f docs).length = docs.length := by
  simp [NLPProcessing.do_stem_lem]

/-- The stem/lemmatize pass returns one document per input document. -/
theorem stemlemDocs_length (ext : StemExt) (st : NLPProcessing)
    (docs : List String) :
    (NLPProcessing.stemlemDocs ext st docs).length = docs.length := by
  unfold NLPProcessing.stemlemDocs
  generalize stemlemSteps st.stemlem = steps
  induction steps generalizing docs with
  | nil => rfl
  | cons s rest ih =>
    rw [List.foldl_cons, ih]
    exact do_stem_lem_length st (ext.stepFn s) docs

/-- The vectorizer produces one feature row per document. -/
theorem vectorizer_transform_length (v : Vectorizer) (docs : List String) :
    (v.transform docs).length = docs.length := by
  simp [Vectorizer.transform]

/-- One unrolling of the cross-validation loop, with the per-fold fit,
transform, prediction and confusion-matrix accumulation made explicit. -/
theorem cvGo_cons_eq (ext : StemExt) (m : JHPModel)
    (fold : List (String × Nat) × List (String × Nat))
    (rest : List (List (String × Nat) × List (String × Nat)))
    (conf : List (List Nat)) (v : Vectorizer)
    (hv : ((JHPModel.fit ext m fold.1).processing).vectorize = some v) :
    JHPModel.cvGo ext m conf (fold :: rest)
      = JHPModel.cvGo ext
          { JHPModel.fit ext m fold.1 with
            processing := (((JHPModel.fit ext m fold.1).processing).transformFitted
              ext v (InputData.frame (create_model_frame fold.2
                (JHPModel.fit ext m fold.1).classes))).1 }
          (matAdd conf (confusionMatrix (JHPModel.fit ext m fold.1).classes
            ((create_model_frame fold.2 (JHPModel.fit ext m fold.1).classes).map
              (fun rec => rec.2))
            ((JHPModel.fit ext m fold.1).model.predictFn
              ((((JHPModel.fit ext m fold.1).processing).transformFitted ext v
                (InputData.frame (create_model_frame fold.2
                  (JHPModel.fit ext m fold.1).classes))).2))))
          rest := by
  simp only [JHPModel.cvGo]
  rw [transform_eq_of_some ext _ _ v hv]

/-- The confusion matrix a cross-validation fold contributes is square and
its entries sum to the number of held-out records of the fold. -/
theorem fold_cm_entrySum (ext : StemExt) (c : Classifier) (n : Nat)
    (hlen : ∀ p, (c.predictFn p).length = p.1.length)
    (hrange : ∀ p k, k ∈ c.predictFn p → k < n)
    (m : JHPModel) (test : List (String × Nat)) (v : Vectorizer)
    (hm : m.model = c) (hc : m.classes = n)
    (hnum : m.processing.num_cities = n)
    (hlab : ∀ r ∈ test, r.2 < n) :
    MatDim n (confusionMatrix m.classes
      ((create_model_frame test m.classes).map (fun rec => rec.2))
      (m.model.predictFn
        (((m.processing).transformFitted ext v
          (InputData.frame (create_model_frame test m.classes))).2))) ∧
    entrySum (confusionMatrix m.classes
      ((create_model_frame test m.classes).map (fun rec => rec.2))
      (m.model.predictFn
        (((m.processing).transformFitted ext v
          (InputData.frame (create_model_frame test m.classes))).2)))
      = test.length := by
  rw [hm, hc]
  have hdf : create_model_frame test n = test := by
    apply List.filter_eq_self.mpr
    intro r hr
    simpa using hlab r hr
  rw [hdf]
  have hX : ((m.processing).transformFitted ext v
      (InputData.frame test)).2.1
      = v.transform (NLPProcessing.stemlemDocs ext
          { m.processing with done_stopwords := true }
          ((create_model_frame test m.processing.num_cities).map
            (fun r => r.1))) := rfl
  have hXlen : (((m.processing).transformFitted ext v
      (InputData.frame test)).2.1).length = test.length := by
    rw [hX, vectorizer_transform_length, stemlemDocs_length, List.length_map,
      hnum, hdf]
  have hylen : ((test.map (fun rec => rec.2)).zip
      (c.predictFn (((m.processing).transformFitted ext v
        (InputData.frame test)).2))).length = test.length := by
    rw [List.length_zip, hlen, hXlen, List.length_map, Nat.min_self]
  constructor
  · exact matDim_confusionMatrix n _ _
  · rw [confusionMatrix_entrySum n _ _ ?ht ?hp]
    · exact hylen
    case ht =>
      intro k hk
      obtain ⟨r, hr, rfl⟩ := List.mem_map.mp hk
      exact hlab r hr
    case hp =>
      intro k hk
      exact hrange _ k hk

/-- The cross-validation loop preserves squareness of the accumulator and
adds exactly one unit per held-out record of every completed fold. -/
theorem cvGo_conservation (ext : StemExt) (c : Classifier) (n : Nat)
    (hlen : ∀ p, (c.predictFn p).length = p.1.length)
    (hrange : ∀ p k, k ∈ c.predictFn p → k < n) :
    ∀ (folds : List (List (String × Nat) × List (String × Nat)))
      (m : JHPModel) (conf confOut : List (List Nat)) (mOut : JHPModel),
      m.model = c → m.classes = n → m.processing.num_cities = n →
      MatDim n conf →
      (∀ f ∈ folds, ∀ r ∈ f.2, r.2 < n) →
      JHPModel.cvGo ext m conf folds = (mOut, Except.ok confOut) →
      MatDim n confOut ∧
      entrySum confOut
        = entrySum conf + (folds.map (fun f => f.2.length)).sum := by
  intro folds
  induction folds with
  | nil =>
    intro m conf confOut mOut _ _ _ hdim _ heq
    rw [JHPModel.cvGo] at heq
    injection heq with h1 h2
    injection h2 with h2
    subst h2
    simpa using hdim
  | cons fold rest ih =>
    intro m conf confOut mOut hm hc hnum hdim hlab heq
    obtain ⟨v, hv⟩ := fit_vectorize_some ext m fold.1
    rw [cvGo_cons_eq ext m fold rest conf v hv] at heq
    have hm1 : (JHPModel.fit ext m fold.1).model = c := hm
    have hc1 : (JHPModel.fit ext m fold.1).classes = n := hc
    have hnum1 : ((JHPModel.fit ext m fold.1).processing).num_cities = n := hnum
    have hfold := fold_cm_entrySum ext c n hlen hrange
      (JHPModel.fit ext m fold.1) fold.2 v hm1 hc1 hnum1
      (hlab fold (by simp))
    obtain ⟨hdim2, hsum2⟩ := ih _ _ _ _ hm1 hc1 hnum1
      (matDim_matAdd n _ _ hdim hfold.1)
      (fun f hf => hlab f (by simp [hf])) heq
    refine ⟨hdim2, ?_⟩
    rw [hsum2, entrySum_matAdd_dim n _ _ hdim hfold.1, hfold.2]
    simp only [List.map_cons, List.sum_cons]
    omega

/-- C6: when `cross_validate` completes (no fold aborts), the aggregate
confusion accumulator — built by elementwise numeric addition of the
per-fold confusion matrices onto the zero matrix — is a classes × classes
matrix whose entries sum to the total number of held-out test records
across all folds.  The hypotheses are the contracts of the collaborators as
this code invokes them: the duck-typed classifier, handed transform's
entire (features, labels) pair, returns one in-range class per feature row
of that payload, and the data are model-ready (every label below the class
count). -/
theorem cross_validate_conservation (ext : StemExt) (m : JHPModel)
    (folds : List (List (String × Nat) × List (String × Nat)))
    (confusion : List (List Nat))
    (hlen : ∀ p, (m.model.predictFn p).length = p.1.length)
    (hrange : ∀ p k, k ∈ m.model.predictFn p → k < m.classes)
    (hnum : m.processing.num_cities = m.classes)
    (hlab : ∀ f ∈ folds, ∀ r ∈ f.2, r.2 < m.classes)
    (hok : (m.cross_validate ext folds).2 = Except.ok confusion) :
    (confusion.length = m.classes ∧ ∀ row ∈ confusion, row.length = m.classes) ∧
    entrySum confusion = (folds.map (fun f => f.2.length)).sum := by
  have heq : JHPModel.cvGo ext m (zerosMat m.classes) folds
      = ((m.cross_validate ext folds).1, Except.ok confusion) := by
    rw [← hok]
    rfl
  obtain ⟨hdim, hsum⟩ := cvGo_conservation ext m.model m.classes hlen hrange
    folds m (zerosMat m.classes) confusion _ rfl rfl hnum
    (matDim_zeros m.classes) hlab heq
  refine ⟨hdim, ?_⟩
  rw [hsum, entrySum_zeros]
  omega

/-- C6 (witness): a concrete one-fold cross-validation over two classes,
with the constant-class-0 classifier, produces the aggregate [[1,0],[1,0]],
a 2 × 2 matrix whose entries sum to the 2 held-out records. -/
theorem cross_validate_conservation_witness :
    (([[1, 0], [1, 0]] : List (List Nat)).length
        = (JHPModel.init demoClassifier "" 1 1 2 1 false).classes ∧
      ∀ row ∈ ([[1, 0], [1, 0]] : List (List Nat)),
        row.length = (JHPModel.init demoClassifier "" 1 1 2 1 false).classes) ∧
    entrySum [[1, 0], [1, 0]]
      = ([([("a a", 0), ("b", 1)], [("a", 0), ("b", 1)])].map
          (fun f => f.2.length)).sum := by
  exact cross_validate_conservation idExt
    (JHPModel.init demoClassifier "" 1 1 2 1 false)
    [([("a a", 0), ("b", 1)], [("a", 0), ("b", 1)])]
    [[1, 0], [1, 0]]
    (fun p => by simp [JHPModel.init, demoClassifier])
    (fun p k hk => by
      obtain ⟨a, _, h0⟩ := List.mem_map.mp hk
      rw [← h0]
      decide)
    rfl
    (by decide)
    (by rfl)
